import Mathlib

/-!
# Verification of the pipe head-loss calculator core

Shallow embedding of `src/Head_Loss_Calculator.py`.  Python floats are
modelled by real numbers; a Python function that can raise an exception is
modelled as an `Except`-valued function whose error cases mirror the
built-in exceptions the interpreter would raise (`ZeroDivisionError` on a
zero divisor, `ValueError` on a `math.sqrt`/`math.log10` domain error).
Interactive `input` choices become explicit parameters; `print` output is
ignored except for the Swamee-Jain out-of-range warning, which is modelled
as a predicate on the inputs.
-/

noncomputable section

/-- Errors a computation of the calculator can signal.  The first three
are the Python built-ins actually raised by `Head_Loss_Calculator.py`
(`typeError` arises from `math.log10` applied to the complex value that
`Re**0.9` produces for negative `Re`); the last two (`domainError`,
`numericalInstabilityError`) are the error classes of the error taxonomy
of the specification, included so that statements about them can be
expressed — the embedded code never produces them. -/
inductive PyError where
  | zeroDivisionError
  | valueError
  | typeError
  | domainError
  | numericalInstabilityError
  deriving DecidableEq

/-- Flow regime categories (`calculate_darcy_weisbach`, lines 51-56). -/
inductive FlowRegime where
  | laminar
  | transitional
  | turbulent
  deriving DecidableEq

/-- Regime classification from `calculate_darcy_weisbach` lines 51-56:
`if Re < 2000: "Laminar" elif Re <= 4000: "Transitional" else: "Turbulent"`. -/
def classify_regime (Re : ℝ) : FlowRegime :=
  if Re < 2000 then .laminar
  else if Re ≤ 4000 then .transitional
  else .turbulent

/-- Darcy-Weisbach head loss, line 93 of the source:
`h_L = f * (L/D) * (v**2 / (2 * g))` with `g = 9.81` (line 8).
Python raises `ZeroDivisionError` on `L/D` when `D = 0`; otherwise the
formula value is returned unconditionally (no sign checks in the source). -/
def head_loss_darcy_weisbach (f L D v : ℝ) : Except PyError ℝ :=
  if D = 0 then .error .zeroDivisionError
  else .ok (f * (L / D) * (v ^ 2 / (2 * 9.81)))

/-- Hazen-Williams head loss, line 217 of the source:
`h_L = (10.67 * (Q**1.85) * L) / ((C**1.85) * (D**4.87))`. -/
def head_loss_hazen_williams (Q L C D : ℝ) : ℝ :=
  10.67 * Q ^ (1.85 : ℝ) * L / (C ^ (1.85 : ℝ) * D ^ (4.87 : ℝ))

/-- Modelled from the spec: the Hazen-Williams formula
`h_L = 10.67 · Q^1.85 · L / (C^1.85 · D^4.87)` exactly as §4.4 states it,
to be compared with the source definition `head_loss_hazen_williams`. -/
def hazenWilliamsSpecFormula (Q L C D : ℝ) : ℝ :=
  10.67 * Q ^ (1.85 : ℝ) * L / (C ^ (1.85 : ℝ) * D ^ (4.87 : ℝ))

/-- The full set of scalars a caller might supply to the calculator
(diameter, length, flow rate, viscosity, roughness, Hazen-Williams
coefficient, and a friction factor).  The Hazen-Williams branch of the
program (`calculate_hazen_williams`) reads only `D`, `L`, `Q`, `C`. -/
structure CalcInput where
  D : ℝ
  L : ℝ
  Q : ℝ
  nu : ℝ
  epsilon : ℝ
  C : ℝ
  fricF : ℝ

/-- The Hazen-Williams branch of `main` (lines 27-28 dispatching to
`calculate_hazen_williams`): it consumes only `Q`, `L`, `C`, `D` from the
supplied inputs. -/
def hazen_williams_path (i : CalcInput) : ℝ :=
  head_loss_hazen_williams i.Q i.L i.C i.D

/-- Swamee-Jain friction factor (`swamee_jain`, lines 133-147):
`f = 0.25 / (math.log10((relative_roughness/3.7) + (5.74/(Re**0.9))))**2`
with `relative_roughness = epsilon / D` (line 139), with the Python
exception behaviour in evaluation order: `epsilon / D` raises
`ZeroDivisionError` at `D = 0`; `5.74/(Re**0.9)` raises
`ZeroDivisionError` when `Re**0.9 = 0` (that is, at `Re = 0`); for
`Re < 0` the power `Re**0.9` is a complex number and `math.log10` then
raises `TypeError`; `math.log10` raises `ValueError` on a non-positive
real argument; and the outer division `0.25 / (...)**2` raises
`ZeroDivisionError` when the logarithm is exactly zero. -/
def swamee_jain (ε D Re : ℝ) : Except PyError ℝ :=
  if D = 0 then .error .zeroDivisionError
  else if Re ^ (0.9 : ℝ) = 0 then .error .zeroDivisionError
  else if Re < 0 then .error .typeError
  else if ε / D / 3.7 + 5.74 / Re ^ (0.9 : ℝ) ≤ 0 then .error .valueError
  else if Real.logb 10 (ε / D / 3.7 + 5.74 / Re ^ (0.9 : ℝ)) = 0 then
    .error .zeroDivisionError
  else .ok (0.25 / (Real.logb 10 (ε / D / 3.7 + 5.74 / Re ^ (0.9 : ℝ))) ^ 2)

/-- The condition under which `swamee_jain` prints its out-of-range warning
(line 141 of the source):
`Re <= 4000 or Re >= 10**8 or relative_roughness < 10**-6 or relative_roughness > 10**-2`. -/
def swamee_jain_out_of_range (ε D Re : ℝ) : Prop :=
  Re ≤ 4000 ∨ 10 ^ 8 ≤ Re ∨ ε / D < 1 / 10 ^ 6 ∨ 1 / 10 ^ 2 < ε / D

/-- Modelled from the spec: the Swamee-Jain valid range
`4000 < Re < 10⁸ and 10⁻⁶ < ε/D < 10⁻²` (§4.2), to be compared with the
warning condition of the source. -/
def swamee_jain_valid_range (ε D Re : ℝ) : Prop :=
  4000 < Re ∧ Re < 10 ^ 8 ∧ 1 / 10 ^ 6 < ε / D ∧ ε / D < 1 / 10 ^ 2

/-- Embedding of `simplified_friction_factor(Re, epsilon, D)` (lines 150-190).
`turb_choice` models the interactive turbulent-flow menu choice
(`true` = choice 1, Blasius; `false` = choice 2, fixed roughness bands).
Line 152 computes `relative_roughness = epsilon / D`, raising
`ZeroDivisionError` when `D = 0`; the laminar branch `f = 64 / Re`
(line 156) raises `ZeroDivisionError` when `Re = 0`. -/
def simplified_friction_factor (Re ε D : ℝ) (turb_choice : Bool) : Except PyError ℝ :=
  if D = 0 then .error .zeroDivisionError
  else if Re < 2000 then
    if Re = 0 then .error .zeroDivisionError
    else .ok (64 / Re)
  else if turb_choice then
    .ok (0.316 / Re ^ (0.25 : ℝ))
  else
    .ok (if ε / D < 0.0001 then 0.022
         else if ε / D < 0.001 then 0.030
         else 0.038)

/-- One update of the Colebrook-White fixed-point iteration, line 117 of
the source (also step 2 of spec §4.3):
`f_new = 1 / (-2 * math.log10((relative_roughness/3.71) + (2.51/(Re*math.sqrt(f)))))**2`
with `relative_roughness = epsilon/D` (line 116). -/
def cwStep (ε D Re f : ℝ) : ℝ :=
  1 / (-2 * Real.logb 10 (ε / D / 3.71 + 2.51 / (Re * Real.sqrt f))) ^ 2

/-- The mathematical iterate sequence of the Colebrook-White iteration:
`f₀ = 0.002` (line 105) and `f_{n+1} = cwStep f_n`. -/
def cwSeq (ε D Re : ℝ) : ℕ → ℝ
  | 0 => 0.002
  | n + 1 => cwStep ε D Re (cwSeq ε D Re n)

/-- Convergence test of line 120, `|f_{i+1} - f_i| < 1e-6`, succeeding at
step `i` (tolerance `1e-6`, line 109). -/
def convergedAt (ε D Re : ℝ) (i : ℕ) : Prop :=
  |cwSeq ε D Re (i + 1) - cwSeq ε D Re i| < 1e-6

/-- One iteration body of `colebrook_white` with the Python exception
behaviour, in evaluation order: `epsilon/D` (ZeroDivisionError if `D = 0`),
`math.sqrt(f)` (ValueError if `f < 0`), `2.51/(Re*sqrt(f))`
(ZeroDivisionError if the divisor is zero), `math.log10(a)` (ValueError if
`a ≤ 0`), and the outer `1/(...)**2` (ZeroDivisionError if the log is
zero). -/
def cwStepE (ε D Re f : ℝ) : Except PyError ℝ :=
  if D = 0 then .error .zeroDivisionError
  else if f < 0 then .error .valueError
  else if Re * Real.sqrt f = 0 then .error .zeroDivisionError
  else if ε / D / 3.71 + 2.51 / (Re * Real.sqrt f) ≤ 0 then .error .valueError
  else if Real.logb 10 (ε / D / 3.71 + 2.51 / (Re * Real.sqrt f)) = 0 then
    .error .zeroDivisionError
  else .ok (cwStep ε D Re f)

/-- The `for i in range(max_iterations)` loop of `colebrook_white`
(lines 114-130), with `n` the remaining fuel and `f` the current iterate:
compute `f_new`; return it if `|f_new - f| < 1e-6`; otherwise continue with
`f = f_new`; when the fuel runs out return the last `f`. -/
def cwLoopE (ε D Re : ℝ) : ℝ → ℕ → Except PyError ℝ
  | f, 0 => .ok f
  | f, n + 1 =>
    match cwStepE ε D Re f with
    | .error e => .error e
    | .ok fn => if |fn - f| < 1e-6 then .ok fn else cwLoopE ε D Re fn n

/-- Embedding of `colebrook_white(epsilon, D, Re)` (lines 99-130): seed `f = 0.002`,
`max_iterations = 50`. -/
def colebrook_white (ε D Re : ℝ) : Except PyError ℝ :=
  cwLoopE ε D Re 0.002 50

/-! ## Flow-regime classification (claim C2) -/

/-- Claim C2 (amended): `classify_regime` partitions the Reynolds axis with
no gaps or overlaps: Laminar exactly when `Re < 2000`, Transitional exactly
when `2000 ≤ Re ≤ 4000`, Turbulent exactly when `Re > 4000`.  In
particular the boundary `Re = 2000` is Transitional (the strict `< 2000`
rule excludes it from Laminar) and `Re = 4000` is Transitional. -/
theorem classify_regime_partition (Re : ℝ) :
    (classify_regime Re = .laminar ↔ Re < 2000) ∧
    (classify_regime Re = .transitional ↔ 2000 ≤ Re ∧ Re ≤ 4000) ∧
    (classify_regime Re = .turbulent ↔ 4000 < Re) := by
  unfold classify_regime
  split_ifs with h1 h2
  · exact ⟨⟨fun _ => h1, fun _ => rfl⟩,
      ⟨fun hx => absurd hx (by decide), fun hx => absurd hx.1 (by linarith)⟩,
      ⟨fun hx => absurd hx (by decide), fun hx => absurd h1 (by linarith)⟩⟩
  · exact ⟨⟨fun hx => absurd hx (by decide), fun hx => absurd hx h1⟩,
      ⟨fun _ => ⟨not_lt.mp h1, h2⟩, fun _ => rfl⟩,
      ⟨fun hx => absurd hx (by decide), fun hx => absurd h2 (by linarith)⟩⟩
  · exact ⟨⟨fun hx => absurd hx (by decide), fun hx => absurd hx h1⟩,
      ⟨fun hx => absurd hx (by decide), fun hx => absurd hx.2 h2⟩,
      ⟨fun _ => not_le.mp h2, fun _ => rfl⟩⟩

/-- Claim C2 counterexample: the claim says the boundary value `Re = 2000`
is classified Laminar; the code classifies it Transitional (`2000 < 2000`
is false, so the `elif Re <= 4000` branch is taken). -/
theorem classify_regime_at_2000 :
    classify_regime 2000 = FlowRegime.transitional ∧
    classify_regime 2000 ≠ FlowRegime.laminar := by
  have h : classify_regime 2000 = FlowRegime.transitional := by
    unfold classify_regime
    rw [if_neg (lt_irrefl (2000 : ℝ)), if_pos (by norm_num)]
  exact ⟨h, by rw [h]; decide⟩

/-! ## Darcy-Weisbach head loss (claim C4) -/

/-- Claim C4 (amended): `head_loss_darcy_weisbach` returns exactly
`f · (L/D) · (v² / (2·9.81))` whenever `D ≠ 0` — also for `D < 0` or
`f < 0`, for which no `DomainError` is raised (the source has no sign
checks) — and raises `ZeroDivisionError` at `D = 0`. -/
theorem head_loss_darcy_weisbach_formula (f L D v : ℝ) :
    (D ≠ 0 → head_loss_darcy_weisbach f L D v =
      .ok (f * (L / D) * (v ^ 2 / (2 * 9.81)))) ∧
    (D = 0 → head_loss_darcy_weisbach f L D v = .error .zeroDivisionError) := by
  unfold head_loss_darcy_weisbach
  exact ⟨fun h => by rw [if_neg h], fun h => by rw [if_pos h]⟩

/-- Claim C4 counterexample: at `f = -1 < 0` (with `D = 1 > 0`) the code
returns the formula value `-(1/19.62)` instead of failing with
`DomainError` as the claim requires. -/
theorem head_loss_darcy_weisbach_negative_f :
    (-1 : ℝ) < 0 ∧
    head_loss_darcy_weisbach (-1) 1 1 1 = .ok (-(1 / 19.62)) := by
  refine ⟨by norm_num, ?_⟩
  unfold head_loss_darcy_weisbach
  rw [if_neg (by norm_num)]
  norm_num

/-- Witness for the theorem of claim C4 at `f = -1`, `L = 2`, `D = 1`, `v = 3`. -/
theorem head_loss_darcy_weisbach_formula_witness :
    head_loss_darcy_weisbach (-1) 2 1 3 =
      .ok ((-1) * (2 / 1) * (3 ^ 2 / (2 * 9.81))) :=
  (head_loss_darcy_weisbach_formula (-1) 2 1 3).1 (by norm_num)

/-! ## Laminar friction factor (claim C6) -/

/-- Claim C6 (amended): the laminar branch of `simplified_friction_factor`
(taken whenever `Re < 2000`) returns exactly `64 / Re` whenever `Re ≠ 0` —
including for negative `Re`, where it produces a negative division result
rather than an error — and raises `ZeroDivisionError` (not `DomainError`,
which the code does not define) at `Re = 0`. -/
theorem laminar_friction_factor_spec (Re ε D : ℝ) (tc : Bool)
    (hD : D ≠ 0) (hRe : Re < 2000) :
    (Re ≠ 0 → simplified_friction_factor Re ε D tc = .ok (64 / Re)) ∧
    (Re = 0 →
      simplified_friction_factor Re ε D tc = .error .zeroDivisionError) := by
  unfold simplified_friction_factor
  rw [if_neg hD, if_pos hRe]
  exact ⟨fun h => by rw [if_neg h], fun h => by rw [if_pos h]⟩

/-- Claim C6 counterexample: `Re = -100 ≤ 0` reaches the laminar branch and
returns the division result `64 / (-100) = -0.64` instead of raising
`DomainError`. -/
theorem laminar_friction_factor_negative_Re :
    (-100 : ℝ) ≤ 0 ∧
    simplified_friction_factor (-100) 0 1 false = .ok (-0.64) := by
  refine ⟨by norm_num, ?_⟩
  unfold simplified_friction_factor
  rw [if_neg (by norm_num), if_pos (by norm_num), if_neg (by norm_num)]
  norm_num

/-- Witness for the theorem of claim C6: `Re = 1000` gives `f = 64/1000`
(`= 0.064`, the example value given in the spec). -/
theorem laminar_friction_factor_spec_witness :
    simplified_friction_factor 1000 0 1 false = .ok (64 / 1000) :=
  (laminar_friction_factor_spec 1000 0 1 false (by norm_num) (by norm_num)).1
    (by norm_num)

/-! ## Fixed roughness-category friction factor (claim C8) -/

/-- Claim C8: with the fixed-roughness-category choice (turbulent branch,
menu choice 2), the friction factor is exactly `0.022` when `ε/D < 1e-4`,
`0.030` when `1e-4 ≤ ε/D < 1e-3`, and `0.038` when `ε/D ≥ 1e-3`, with no
interpolation between the bands. -/
theorem fixed_roughness_bands (Re ε D : ℝ) (hD : D ≠ 0) (hRe : ¬ Re < 2000) :
    (ε / D < 0.0001 → simplified_friction_factor Re ε D false = .ok 0.022) ∧
    (0.0001 ≤ ε / D → ε / D < 0.001 →
      simplified_friction_factor Re ε D false = .ok 0.030) ∧
    (0.001 ≤ ε / D → simplified_friction_factor Re ε D false = .ok 0.038) := by
  unfold simplified_friction_factor
  rw [if_neg hD, if_neg hRe, if_neg (by simp)]
  refine ⟨fun h => by rw [if_pos h],
    fun h1 h2 => by rw [if_neg (not_lt.mpr h1), if_pos h2],
    fun h => by
      rw [if_neg (not_lt.mpr (le_trans (by norm_num) h)),
        if_neg (not_lt.mpr h)]⟩

/-- Witness for the theorem of claim C8: `Re = 3000`, `ε = 0.00005`, `D = 1`
falls in the smooth band, giving `f = 0.022`. -/
theorem fixed_roughness_bands_witness :
    simplified_friction_factor 3000 0.00005 1 false = .ok 0.022 :=
  (fixed_roughness_bands 3000 0.00005 1 (by norm_num) (by norm_num)).1
    (by norm_num)

/-! ## Hazen-Williams head loss (claims C5, C9) -/

/-- Claim C5: the Hazen-Williams path computes exactly
`h_L = 10.67 · Q^1.85 · L / (C^1.85 · D^4.87)` and its value is determined
solely by `(Q, L, C, D)`: two input sets that agree on those four fields —
however they differ in roughness `ε`, viscosity `ν`, or a supplied friction
factor — yield the same head loss. -/
theorem hazen_williams_independence (i j : CalcInput)
    (hQ : i.Q = j.Q) (hL : i.L = j.L) (hC : i.C = j.C) (hD : i.D = j.D) :
    hazen_williams_path i = hazen_williams_path j ∧
    hazen_williams_path i = hazenWilliamsSpecFormula i.Q i.L i.C i.D := by
  constructor
  · unfold hazen_williams_path
    rw [hQ, hL, hC, hD]
  · rfl

/-- Witness for the theorem of claim C5: the scenario from the spec `D = 0.3`,
`L = 100`, `Q = 0.05`, `C = 130`, with `ε`, `ν` and the friction factor
changed between the two inputs. -/
theorem hazen_williams_independence_witness :
    hazen_williams_path ⟨0.3, 100, 0.05, 1e-6, 0.00015, 130, 0.02⟩ =
      hazen_williams_path ⟨0.3, 100, 0.05, 2e-6, 0.003, 130, 0.04⟩ ∧
    hazen_williams_path ⟨0.3, 100, 0.05, 1e-6, 0.00015, 130, 0.02⟩ =
      hazenWilliamsSpecFormula 0.05 100 130 0.3 :=
  hazen_williams_independence _ _ rfl rfl rfl rfl

/-- Claim C9: for fixed `Q > 0`, `L > 0`, `D > 0` the Hazen-Williams head
loss is strictly decreasing in the coefficient `C` over `C > 0`. -/
theorem hazen_williams_decreasing_in_C (Q L D C₁ C₂ : ℝ)
    (hQ : 0 < Q) (hL : 0 < L) (hD : 0 < D) (hC₁ : 0 < C₁) (h : C₁ < C₂) :
    head_loss_hazen_williams Q L C₂ D < head_loss_hazen_williams Q L C₁ D := by
  unfold head_loss_hazen_williams
  have hN : 0 < 10.67 * Q ^ (1.85 : ℝ) * L :=
    mul_pos (mul_pos (by norm_num) (Real.rpow_pos_of_pos hQ _)) hL
  have hD' : 0 < D ^ (4.87 : ℝ) := Real.rpow_pos_of_pos hD _
  have hd1 : 0 < C₁ ^ (1.85 : ℝ) * D ^ (4.87 : ℝ) :=
    mul_pos (Real.rpow_pos_of_pos hC₁ _) hD'
  have hlt : C₁ ^ (1.85 : ℝ) * D ^ (4.87 : ℝ) < C₂ ^ (1.85 : ℝ) * D ^ (4.87 : ℝ) :=
    mul_lt_mul_of_pos_right (Real.rpow_lt_rpow (le_of_lt hC₁) h (by norm_num)) hD'
  exact div_lt_div_of_pos_left hN hd1 hlt

/-- Witness for the theorem of claim C9: with `Q = L = D = 1`, the coefficient
`C = 100` yields a strictly larger head loss than `C = 140` (the example
pair given in the spec). -/
theorem hazen_williams_decreasing_in_C_witness :
    head_loss_hazen_williams 1 1 140 1 < head_loss_hazen_williams 1 1 100 1 :=
  hazen_williams_decreasing_in_C 1 1 1 100 140 (by norm_num) (by norm_num)
    (by norm_num) (by norm_num) (by norm_num)

/-! ## Swamee-Jain friction factor (claim C7) -/

/-- Claim C7 (amended): for `Re > 0`, `ε ≥ 0`, `D > 0`, `swamee_jain`
returns exactly `0.25 / [log10(ε/(3.7·D) + 5.74/Re^0.9)]²` whenever that
logarithm is nonzero — also outside the valid range, where only the
non-fatal printed advisory differs; but when the logarithm is exactly zero
(argument exactly `1`) the outer division `0.25/0.0**2` raises
`ZeroDivisionError` instead of returning a value.  The advisory is set
exactly when `Re ≤ 4000` or `Re ≥ 10⁸` or `ε/D < 10⁻⁶` or `ε/D > 10⁻²`,
that is, outside the closed region; at the boundary points `ε/D = 10⁻⁶`
and `ε/D = 10⁻²`, although outside the open valid range of the spec, no
advisory is set. -/
theorem swamee_jain_spec (ε D Re : ℝ) (hε : 0 ≤ ε) (hD : 0 < D) (hRe : 0 < Re) :
    (Real.logb 10 (ε / D / 3.7 + 5.74 / Re ^ (0.9 : ℝ)) ≠ 0 →
      swamee_jain ε D Re =
        .ok (0.25 / (Real.logb 10 (ε / D / 3.7 + 5.74 / Re ^ (0.9 : ℝ))) ^ 2)) ∧
    (Real.logb 10 (ε / D / 3.7 + 5.74 / Re ^ (0.9 : ℝ)) = 0 →
      swamee_jain ε D Re = .error .zeroDivisionError) ∧
    (swamee_jain_out_of_range ε D Re ↔
      ¬ (4000 < Re ∧ Re < 10 ^ 8 ∧ 1 / 10 ^ 6 ≤ ε / D ∧ ε / D ≤ 1 / 10 ^ 2)) := by
  have hp : 0 < Re ^ (0.9 : ℝ) := Real.rpow_pos_of_pos hRe _
  have harg : 0 < ε / D / 3.7 + 5.74 / Re ^ (0.9 : ℝ) := by
    have h1 : 0 ≤ ε / D / 3.7 := div_nonneg (div_nonneg hε hD.le) (by norm_num)
    have h2 : 0 < 5.74 / Re ^ (0.9 : ℝ) := div_pos (by norm_num) hp
    linarith
  refine ⟨?_, ?_, ?_⟩
  · intro hlog
    unfold swamee_jain
    rw [if_neg hD.ne', if_neg hp.ne', if_neg (not_lt.mpr hRe.le),
      if_neg (not_le.mpr harg), if_neg hlog]
  · intro hlog
    unfold swamee_jain
    rw [if_neg hD.ne', if_neg hp.ne', if_neg (not_lt.mpr hRe.le),
      if_neg (not_le.mpr harg), if_pos hlog]
  · unfold swamee_jain_out_of_range
    constructor
    · rintro (h | h | h | h) ⟨h1, h2, h3, h4⟩ <;> linarith
    · intro h
      by_contra hc
      push_neg at hc
      exact h hc

/-- Claim C7 counterexample, in two parts: (a) at `Re = 5000`,
`ε/D = 10⁻⁶` the inputs are outside the open valid range of the spec
(`10⁻⁶ < ε/D` fails), yet the code sets no out-of-range advisory; (b) at
`ε = 0`, `D = 1`, `Re = 5.74^(10/9) > 0` the `log10` argument is exactly
`1`, the logarithm is `0`, and the call raises `ZeroDivisionError` instead
of returning a value — each contradicting the claim that in-range inputs
with `Re > 0`, `ε ≥ 0`, `D > 0` always return the formula value and that
outside the valid range the advisory is always set. -/
theorem swamee_jain_boundary_no_advisory :
    (¬ swamee_jain_valid_range (1 / 10 ^ 6) 1 5000 ∧
      ¬ swamee_jain_out_of_range (1 / 10 ^ 6) 1 5000) ∧
    (0 < (5.74 : ℝ) ^ ((10 : ℝ) / 9) ∧
      swamee_jain 0 1 ((5.74 : ℝ) ^ ((10 : ℝ) / 9)) =
        .error .zeroDivisionError) := by
  refine ⟨⟨?_, ?_⟩, ?_, ?_⟩
  · intro h
    have h3 := h.2.2.1
    norm_num at h3
  · intro h
    unfold swamee_jain_out_of_range at h
    rcases h with h | h | h | h <;> norm_num at h
  · exact Real.rpow_pos_of_pos (by norm_num) _
  · have hb : (0 : ℝ) < 5.74 := by norm_num
    have hpow : ((5.74 : ℝ) ^ ((10 : ℝ) / 9)) ^ (0.9 : ℝ) = 5.74 := by
      rw [← Real.rpow_mul hb.le, show (10 : ℝ) / 9 * 0.9 = 1 from by norm_num,
        Real.rpow_one]
    have hRe : (0 : ℝ) < (5.74 : ℝ) ^ ((10 : ℝ) / 9) :=
      Real.rpow_pos_of_pos hb _
    unfold swamee_jain
    rw [hpow, show (0 : ℝ) / 1 / 3.7 + 5.74 / 5.74 = 1 from by norm_num]
    rw [if_neg (by norm_num : ¬(1 : ℝ) = 0),
      if_neg (by norm_num : ¬(5.74 : ℝ) = 0), if_neg (not_lt.mpr hRe.le),
      if_neg (by norm_num : ¬(1 : ℝ) ≤ 0), if_pos Real.logb_one]

/-- Witness for the theorem of claim C7: `ε = 0`, `D = 1`, `Re = 1`, where
the `log10` argument is `5.74` and the logarithm is positive, so the
formula value is returned. -/
theorem swamee_jain_spec_witness :
    swamee_jain 0 1 1 =
      .ok (0.25 /
        (Real.logb 10 ((0 : ℝ) / 1 / 3.7 + 5.74 / (1 : ℝ) ^ (0.9 : ℝ))) ^ 2) :=
  (swamee_jain_spec 0 1 1 le_rfl one_pos one_pos).1 (by
    rw [show (0 : ℝ) / 1 / 3.7 + 5.74 / (1 : ℝ) ^ (0.9 : ℝ) = 5.74 from by
      rw [Real.one_rpow]; norm_num]
    exact ne_of_gt (Real.logb_pos (by norm_num) (by norm_num)))

/-! ## Colebrook-White iteration: loop lemmas -/

/-- Unfolding `cwLoopE` when the step succeeds. -/
lemma cwLoopE_succ_ok {ε D Re f fn : ℝ} {n : ℕ}
    (h : cwStepE ε D Re f = .ok fn) :
    cwLoopE ε D Re f (n + 1) =
      if |fn - f| < 1e-6 then .ok fn else cwLoopE ε D Re fn n := by
  simp only [cwLoopE]
  rw [h]

/-- Unfolding `cwLoopE` when the step raises. -/
lemma cwLoopE_succ_err {ε D Re f : ℝ} {e : PyError} {n : ℕ}
    (h : cwStepE ε D Re f = .error e) :
    cwLoopE ε D Re f (n + 1) = .error e := by
  simp only [cwLoopE]
  rw [h]

/-- A successful `cwStepE` returns the reciprocal of a square of a nonzero
number, hence a strictly positive value. -/
lemma cwStepE_ok_pos {ε D Re f y : ℝ} (h : cwStepE ε D Re f = .ok y) :
    0 < y := by
  unfold cwStepE at h
  split_ifs at h with h1 h2 h3 h4 h5
  injection h with h9
  rw [← h9]
  unfold cwStep
  have hne : (-2) * Real.logb 10 (ε / D / 3.71 + 2.51 / (Re * Real.sqrt f)) ≠ 0 :=
    mul_ne_zero (by norm_num) h5
  exact one_div_pos.mpr (pow_two_pos_of_ne_zero hne)

/-- The `log10` argument of the Colebrook-White update is strictly positive
whenever `ε ≥ 0`, `D > 0`, `Re > 0` and the current iterate is positive. -/
lemma cw_logArg_pos (ε D Re f : ℝ)
    (hε : 0 ≤ ε) (hD : 0 < D) (hRe : 0 < Re) (hf : 0 < f) :
    0 < ε / D / 3.71 + 2.51 / (Re * Real.sqrt f) := by
  have h1 : 0 < Re * Real.sqrt f := mul_pos hRe (Real.sqrt_pos.mpr hf)
  have h2 : 0 < 2.51 / (Re * Real.sqrt f) := div_pos (by norm_num) h1
  have h3 : 0 ≤ ε / D / 3.71 := div_nonneg (div_nonneg hε hD.le) (by norm_num)
  linarith

/-- Characterization of the `colebrook_white` loop: starting from iterate
`cwSeq m` with `n` iterations of fuel, if every step succeeds and tracks
the mathematical sequence, the loop either returns `cwSeq (m+i+1)` for the
first `i < n` at which the convergence test fires, or returns `cwSeq (m+n)`
when the test never fires. -/
lemma cwLoopE_run (ε D Re : ℝ) :
    ∀ (n m : ℕ),
      (∀ k, k < n →
        cwStepE ε D Re (cwSeq ε D Re (m + k)) = .ok (cwSeq ε D Re (m + k + 1))) →
      (∃ i, i < n ∧ (∀ j, j < i → ¬ convergedAt ε D Re (m + j)) ∧
        convergedAt ε D Re (m + i) ∧
        cwLoopE ε D Re (cwSeq ε D Re m) n = .ok (cwSeq ε D Re (m + i + 1))) ∨
      ((∀ i, i < n → ¬ convergedAt ε D Re (m + i)) ∧
        cwLoopE ε D Re (cwSeq ε D Re m) n = .ok (cwSeq ε D Re (m + n))) := by
  intro n
  induction n with
  | zero =>
    intro m _
    exact Or.inr ⟨fun i hi => absurd hi (Nat.not_lt_zero i), rfl⟩
  | succ n ih =>
    intro m hdef
    have hstep : cwStepE ε D Re (cwSeq ε D Re m) = .ok (cwSeq ε D Re (m + 1)) := by
      have h0 := hdef 0 (Nat.succ_pos n)
      rwa [Nat.add_zero] at h0
    rw [cwLoopE_succ_ok hstep]
    by_cases hc : |cwSeq ε D Re (m + 1) - cwSeq ε D Re m| < 1e-6
    · rw [if_pos hc]
      exact Or.inl ⟨0, Nat.succ_pos n, fun j hj => absurd hj (Nat.not_lt_zero j),
        hc, rfl⟩
    · rw [if_neg hc]
      have hdef' : ∀ k, k < n →
          cwStepE ε D Re (cwSeq ε D Re (m + 1 + k)) =
            .ok (cwSeq ε D Re (m + 1 + k + 1)) := by
        intro k hk
        have hx := hdef (k + 1) (Nat.succ_lt_succ hk)
        rwa [show m + (k + 1) = m + 1 + k from by omega] at hx
      rcases ih (m + 1) hdef' with ⟨i, hi, hmin, hcv, hres⟩ | ⟨hall, hres⟩
      · left
        refine ⟨i + 1, Nat.succ_lt_succ hi, ?_, ?_, ?_⟩
        · intro j hj
          cases j with
          | zero => exact hc
          | succ j =>
            have hx := hmin j (Nat.lt_of_succ_lt_succ hj)
            rwa [show m + 1 + j = m + (j + 1) from by omega] at hx
        · rwa [show m + 1 + i = m + (i + 1) from by omega] at hcv
        · rwa [show m + 1 + i + 1 = m + (i + 1) + 1 from by omega] at hres
      · right
        refine ⟨?_, ?_⟩
        · intro i hi
          cases i with
          | zero => exact hc
          | succ i =>
            have hx := hall i (Nat.lt_of_succ_lt_succ hi)
            rwa [show m + 1 + i = m + (i + 1) from by omega] at hx
        · rwa [show m + 1 + n = m + (n + 1) from by omega] at hres

/-! ## Colebrook-White iteration: the claims -/

/-- Claim C1: `colebrook_white` computes the sequence `f₀ = 0.002`,
`f_{i+1} = 1 / (−2·log10(ε/(3.71·D) + 2.51/(Re·√f_i)))²` (this is `cwSeq`),
returns `f_{i+1}` at the first `i` with `|f_{i+1} − f_i| < 1e-6`, and when
no such step occurs within 50 iterations it returns the last computed
iterate `f₅₀` without failing — for all inputs for which every iterate is
defined (hypothesis `hdef`: each of the 50 update evaluations succeeds and
yields the next element of the sequence). -/
theorem colebrook_white_iteration (ε D Re : ℝ)
    (hdef : ∀ k, k < 50 →
      cwStepE ε D Re (cwSeq ε D Re k) = .ok (cwSeq ε D Re (k + 1))) :
    (∃ i, i < 50 ∧ (∀ j, j < i → ¬ convergedAt ε D Re j) ∧
      convergedAt ε D Re i ∧
      colebrook_white ε D Re = .ok (cwSeq ε D Re (i + 1))) ∨
    ((∀ i, i < 50 → ¬ convergedAt ε D Re i) ∧
      colebrook_white ε D Re = .ok (cwSeq ε D Re 50)) := by
  have h := cwLoopE_run ε D Re 50 0
    (by intro k hk; simpa only [Nat.zero_add] using hdef k hk)
  simp only [Nat.zero_add] at h
  rw [show colebrook_white ε D Re = cwLoopE ε D Re (cwSeq ε D Re 0) 50 from rfl]
  exact h

/-- Claim C10: for `ε ≥ 0`, `D > 0`, `Re > 0`, every iterate the
Colebrook-White iteration actually reaches (hypothesis: each earlier update
evaluation succeeded) is strictly positive, so the argument of the square
root (the iterate itself) and the argument of `log10` are strictly
positive at every step. -/
theorem colebrook_white_iterates_pos (ε D Re : ℝ)
    (hε : 0 ≤ ε) (hD : 0 < D) (hRe : 0 < Re) (n : ℕ)
    (hreach : ∀ m, m < n →
      cwStepE ε D Re (cwSeq ε D Re m) = .ok (cwSeq ε D Re (m + 1))) :
    0 < cwSeq ε D Re n ∧
    0 < ε / D / 3.71 + 2.51 / (Re * Real.sqrt (cwSeq ε D Re n)) := by
  have hpos : 0 < cwSeq ε D Re n := by
    cases n with
    | zero => norm_num [cwSeq]
    | succ n => exact cwStepE_ok_pos (hreach n (Nat.lt_succ_self n))
  exact ⟨hpos, cw_logArg_pos ε D Re _ hε hD hRe hpos⟩

/-! ### A concrete run: `ε = 4`, `D = 1`, `Re = 1`

With relative roughness `4/3.71 > 1` the `log10` argument exceeds `1` at
every iterate, so each update evaluation succeeds; this furnishes witnesses
for the iteration theorems. -/

/-- At `ε = 4`, `D = 1`, `Re = 1` the update succeeds on every positive
iterate. -/
lemma cwStepE_411_ok (f : ℝ) (hf : 0 < f) :
    cwStepE 4 1 1 f = .ok (cwStep 4 1 1 f) := by
  have hs : 0 < Real.sqrt f := Real.sqrt_pos.mpr hf
  have hmul : (1 : ℝ) * Real.sqrt f ≠ 0 := by
    rw [one_mul]; exact ne_of_gt hs
  have ha : 1 < (4 : ℝ) / 1 / 3.71 + 2.51 / (1 * Real.sqrt f) := by
    have h2 : 0 < 2.51 / (1 * Real.sqrt f) := by
      rw [one_mul]; exact div_pos (by norm_num) hs
    have h3 : (1 : ℝ) < 4 / 1 / 3.71 := by norm_num
    linarith
  have hlb : 0 < Real.logb 10 ((4 : ℝ) / 1 / 3.71 + 2.51 / (1 * Real.sqrt f)) :=
    Real.logb_pos (by norm_num) ha
  unfold cwStepE
  rw [if_neg (by norm_num : ¬(1 : ℝ) = 0), if_neg (not_lt.mpr hf.le),
    if_neg hmul, if_neg (not_le.mpr (by linarith)), if_neg (ne_of_gt hlb)]

/-- Every iterate of the `(4, 1, 1)` run is positive. -/
lemma cwSeq_411_pos : ∀ n, 0 < cwSeq 4 1 1 n := by
  intro n
  induction n with
  | zero => norm_num [cwSeq]
  | succ n ih => exact cwStepE_ok_pos (cwStepE_411_ok (cwSeq 4 1 1 n) ih)

/-- Every update evaluation of the `(4, 1, 1)` run succeeds and follows the
mathematical sequence. -/
lemma cw_hdef_411 : ∀ k, k < 50 →
    cwStepE 4 1 1 (cwSeq 4 1 1 k) = .ok (cwSeq 4 1 1 (k + 1)) :=
  fun k _ => cwStepE_411_ok (cwSeq 4 1 1 k) (cwSeq_411_pos k)

/-- Witness for the theorem of claim C1: the concrete run `ε = 4`, `D = 1`,
`Re = 1`, on which every update evaluation succeeds. -/
theorem colebrook_white_iteration_witness :
    (∃ i, i < 50 ∧ (∀ j, j < i → ¬ convergedAt 4 1 1 j) ∧
      convergedAt 4 1 1 i ∧
      colebrook_white 4 1 1 = .ok (cwSeq 4 1 1 (i + 1))) ∨
    ((∀ i, i < 50 → ¬ convergedAt 4 1 1 i) ∧
      colebrook_white 4 1 1 = .ok (cwSeq 4 1 1 50)) :=
  colebrook_white_iteration 4 1 1 cw_hdef_411

/-- Witness for the theorem of claim C10, at the same concrete run after the
full 50 steps. -/
theorem colebrook_white_iterates_pos_witness :
    0 < cwSeq 4 1 1 50 ∧
    0 < 4 / 1 / 3.71 + 2.51 / (1 * Real.sqrt (cwSeq 4 1 1 50)) :=
  colebrook_white_iterates_pos 4 1 1 (by norm_num) (by norm_num) (by norm_num)
    50 cw_hdef_411

/-! ### Error behaviour of the iteration (claim C3) -/

/-- Claim C3 (amended): every error the Colebrook-White iteration can raise
is a Python built-in — `ValueError` (negative `sqrt` argument or
non-positive `log10` argument) or `ZeroDivisionError` (zero divisor) —
never the `NumericalInstabilityError` of the specification or `DomainError`,
which the code does not define; non-convergence, by contrast, returns a
value (the theorem of claim C1). -/
theorem colebrook_white_error_types (ε D Re : ℝ) (e : PyError)
    (h : colebrook_white ε D Re = .error e) :
    e = PyError.valueError ∨ e = PyError.zeroDivisionError := by
  have main : ∀ (n : ℕ) (f : ℝ), cwLoopE ε D Re f n = .error e →
      e = PyError.valueError ∨ e = PyError.zeroDivisionError := by
    intro n
    induction n with
    | zero =>
      intro f hf
      exact absurd hf (by simp [cwLoopE])
    | succ n ih =>
      intro f hf
      cases hs : cwStepE ε D Re f with
      | error e2 =>
        rw [cwLoopE_succ_err hs] at hf
        injection hf with hf2
        subst hf2
        unfold cwStepE at hs
        split_ifs at hs <;> injection hs with hs2 <;> rw [← hs2] <;> decide
      | ok fn =>
        rw [cwLoopE_succ_ok hs] at hf
        by_cases hc : |fn - f| < 1e-6
        · rw [if_pos hc] at hf
          exact absurd hf (by simp)
        · rw [if_neg hc] at hf
          exact ih fn hf
  exact main 50 0.002 h

/-- The first update of the run `ε = 0`, `D = 1`, `Re = -1` feeds a
negative argument to `math.log10`, raising `ValueError`. -/
lemma cwStepE_neg_Re : cwStepE 0 1 (-1) 0.002 = Except.error PyError.valueError := by
  have hs : 0 < Real.sqrt 0.002 := Real.sqrt_pos.mpr (by norm_num)
  have hmul : (-1 : ℝ) * Real.sqrt 0.002 < 0 :=
    mul_neg_of_neg_of_pos (by norm_num) hs
  have hle : (0 : ℝ) / 1 / 3.71 + 2.51 / ((-1) * Real.sqrt 0.002) ≤ 0 := by
    have h1 : 2.51 / ((-1) * Real.sqrt 0.002) < 0 :=
      div_neg_of_pos_of_neg (by norm_num) hmul
    have h2 : (0 : ℝ) / 1 / 3.71 = 0 := by norm_num
    linarith
  unfold cwStepE
  rw [if_neg (by norm_num : ¬(1 : ℝ) = 0),
    if_neg (by norm_num : ¬(0.002 : ℝ) < 0), if_neg (ne_of_lt hmul),
    if_pos hle]

/-- The whole run `ε = 0`, `D = 1`, `Re = -1` aborts with `ValueError` on
its first iteration. -/
lemma cw_run_neg_Re : colebrook_white 0 1 (-1) = Except.error PyError.valueError := by
  unfold colebrook_white
  rw [show (50 : ℕ) = 49 + 1 from rfl, cwLoopE_succ_err cwStepE_neg_Re]

/-- Claim C3 counterexample: at `ε = 0`, `D = 1`, `Re = -1 ≤ 0` the
iteration does abort, but with the Python built-in `ValueError` (from
`math.log10` of a negative argument) — not with
`NumericalInstabilityError`, which the source never raises (it contains no
such class and no explicit guards). -/
theorem colebrook_white_no_instability_error :
    (-1 : ℝ) ≤ 0 ∧
    colebrook_white 0 1 (-1) = Except.error PyError.valueError ∧
    PyError.valueError ≠ PyError.numericalInstabilityError :=
  ⟨by norm_num, cw_run_neg_Re, by decide⟩

/-- Witness for the theorem of claim C3 at the aborting run `(0, 1, -1)`. -/
theorem colebrook_white_error_types_witness :
    PyError.valueError = PyError.valueError ∨
    PyError.valueError = PyError.zeroDivisionError :=
  colebrook_white_error_types 0 1 (-1) PyError.valueError cw_run_neg_Re

end
